import Mathlib

/-!
Verification of the mood-to-playlist core of the Mood-Melodies repository.

The development shallowly embeds the playlist search/aggregation/scoring
logic of `src/services/SpotifyService.ts` (the real-API variant, i.e. the
second class in that file) and of `src/services/SpotifyServiceStatic.ts`.

Modelling conventions:
- JavaScript strings are Lean `String`; a "truthy" string test is `s ≠ ""`.
- The network is a pure environment `env : String → Option (List SpotifyPlaylist)`
  mapping each search term to the parsed item list of its response; `none`
  models a failed request (non-ok HTTP status or a thrown fetch error).
- JavaScript numbers in the scorer are modelled as real numbers (the
  popularity term uses `Math.log10`); purely rational sub-computations
  (the relevance fraction, the static scorer) use `ℚ`.
- `Array.prototype.sort` with comparator `(a, b) => b.score - a.score` is a
  stable sort placing higher scores first; it is modelled by
  `List.mergeSort` with the boolean relation `b.score ≤ a.score`.
- A `throw` surfaced to the caller is modelled with `Except String`, carrying
  the thrown message; functions that return `null` return `Option`.
-/

/-- Does the character list `p` start with the character list `pre`?
Helper for the JavaScript `String.prototype.includes` model. -/
def leadsWith : List Char → List Char → Bool
  | [], _ => true
  | _ :: _, [] => false
  | a :: as, b :: bs => a == b && leadsWith as bs

/-- Does `pat` occur as a contiguous run inside `s`? -/
def occursIn (pat : List Char) : List Char → Bool
  | [] => leadsWith pat []
  | c :: rest => leadsWith pat (c :: rest) || occursIn pat rest

/-- Model of JavaScript `s.includes(pat)`: substring containment. -/
def strIncludes (s pat : String) : Bool :=
  occursIn pat.toList s.toList

/-- Model of JavaScript `toLowerCase()`: characterwise lowering, the same
function as `String.toLower` but defined by structural recursion so that
it computes by kernel reduction. -/
def lowerStr (s : String) : String :=
  ⟨s.data.map Char.toLower⟩

/-- One entry of a playlist's `images` array. -/
structure SpotifyImage where
  url : String
  height : Int
  width : Int
deriving DecidableEq

namespace SpotifyService

/-- The `SpotifyPlaylist` interface of `SpotifyService.ts`: `tracks` stands
for `tracks.total`, `spotifyUrl` for `external_urls.spotify`, and
`followers` for the optionally-present `followers.total` (the code reads it
through the optional chain `playlist.followers?.total`). -/
structure SpotifyPlaylist where
  id : String
  name : String
  description : String
  spotifyUrl : String
  images : List SpotifyImage
  tracks : Nat
  followers : Option Nat
deriving DecidableEq

/-- The static `MOOD_TO_SEARCH_TERMS` table, as a partial lookup. -/
def MOOD_TO_SEARCH_TERMS : String → Option (List String)
  | "Happy" => some ["happy", "upbeat", "cheerful", "feel good", "positive vibes"]
  | "Sad" => some ["sad", "melancholy", "heartbreak", "emotional", "crying"]
  | "Calm" => some ["calm", "relaxing", "peaceful", "chill", "ambient"]
  | "Energetic" => some ["energetic", "workout", "pump up", "high energy", "motivation"]
  | "Excited" => some ["party", "dance", "celebration", "hype", "uplifting"]
  | "Peaceful" => some ["peaceful", "meditation", "zen", "tranquil", "serene"]
  | _ => none

/-- The expression `this.MOOD_TO_SEARCH_TERMS[mood] || [mood.toLowerCase()]`,
which appears verbatim in both `searchPlaylistsByMood` and
`calculateNameRelevance` (table values are non-empty arrays, hence truthy). -/
def searchTermsFor (mood : String) : List String :=
  (MOOD_TO_SEARCH_TERMS mood).getD [lowerStr mood]

/-- Model of `calculateNameRelevance(text, mood)`: fraction (capped at 1) of the
mood's search terms found in the lowercased text, an exact full-string
match counting 1 and a mere containment counting 0.5. Empty text (falsy
in JavaScript) scores 0. -/
def calculateNameRelevance (text mood : String) : ℚ :=
  if text = "" then 0
  else
    let lowerText := lowerStr text
    let searchTerms := searchTermsFor mood
    let relevanceScore : ℚ := searchTerms.foldl
      (fun acc term =>
        if strIncludes lowerText (lowerStr term) then
          if lowerText = lowerStr term then acc + 1 else acc + 1 / 2
        else acc) 0
    min (relevanceScore / searchTerms.length) 1

/-- Model of `filterPlaylistsByQuality`: keep playlists with 15–200 tracks, a truthy
name, and no "test" in the lowercased name. -/
def filterPlaylistsByQuality (playlists : List SpotifyPlaylist) : List SpotifyPlaylist :=
  playlists.filter fun playlist =>
    decide (15 ≤ playlist.tracks) && decide (playlist.tracks ≤ 200) &&
    !(playlist.name == "") && !(strIncludes (lowerStr playlist.name) "test")

/-- Recursion underlying `removeDuplicatePlaylists`: `seen` is the set of
identifiers already encountered (the JavaScript `Set`). -/
def removeDuplicatePlaylistsAux (seen : List String) :
    List SpotifyPlaylist → List SpotifyPlaylist
  | [] => []
  | playlist :: rest =>
    if playlist.id ∈ seen then removeDuplicatePlaylistsAux seen rest
    else playlist :: removeDuplicatePlaylistsAux (playlist.id :: seen) rest

/-- Model of `removeDuplicatePlaylists`: drop entries whose `id` was already seen,
keeping first occurrences in order. -/
def removeDuplicatePlaylists (playlists : List SpotifyPlaylist) : List SpotifyPlaylist :=
  removeDuplicatePlaylistsAux [] playlists

/-- The follower count as the scorer reads it:
`playlist.followers?.total || 1` (absent or zero becomes 1). -/
def followersOrOne (playlist : SpotifyPlaylist) : Nat :=
  match playlist.followers with
  | none => 1
  | some total => if total = 0 then 1 else total

/-- Model of `calculatePlaylistScore`: log-scaled popularity, track-count band
bonus, name/description relevance weighted 30/15, and an image bonus. -/
noncomputable def calculatePlaylistScore (playlist : SpotifyPlaylist) (mood : String) : ℝ :=
  let popularity : ℝ := Real.logb 10 (max (followersOrOne playlist) 1 : ℕ) * 10
  let trackBonus : ℝ :=
    if 30 ≤ playlist.tracks ∧ playlist.tracks ≤ 100 then 20
    else if 15 ≤ playlist.tracks ∧ playlist.tracks ≤ 150 then 10
    else 0
  let nameTerm : ℝ := (calculateNameRelevance playlist.name mood : ℚ) * 30
  let descTerm : ℝ :=
    if playlist.description = "" then 0
    else (calculateNameRelevance playlist.description mood : ℚ) * 15
  let imageBonus : ℝ := if playlist.images = [] then 0 else 5
  popularity + trackBonus + nameTerm + descTerm + imageBonus

/-- The comparator `(a, b) => b.score - a.score` of the JavaScript sort, as
the boolean "may come first" relation of a stable sort. -/
noncomputable def byScoreDesc (a b : SpotifyPlaylist × ℝ) : Bool :=
  decide (b.2 ≤ a.2)

/-- Model of `selectBestPlaylist`: throws "No playlists available for selection" on
an empty input, otherwise scores every candidate, stably sorts by
descending score and returns the first. -/
noncomputable def selectBestPlaylist (playlists : List SpotifyPlaylist) (mood : String) :
    Except String SpotifyPlaylist :=
  if playlists.isEmpty then .error "No playlists available for selection"
  else
    let scoredPlaylists := playlists.map fun playlist =>
      (playlist, calculatePlaylistScore playlist mood)
    match scoredPlaylists.mergeSort byScoreDesc with
    | [] => .error "No playlists available for selection"
    | best :: _ => .ok best.1

/-- Model of `searchPlaylistsByMood`: one request per search term (capped at the
first 3); a failed request contributes nothing; results are concatenated
in loop order, then deduplicated and quality-filtered. -/
def searchPlaylistsByMood (env : String → Option (List SpotifyPlaylist)) (mood : String) :
    List SpotifyPlaylist :=
  let searchTerms := searchTermsFor mood
  let allPlaylists := (searchTerms.take 3).flatMap fun term =>
    match env term with
    | none => []
    | some items => items
  filterPlaylistsByQuality (removeDuplicatePlaylists allPlaylists)

/-- The search terms actually requested over the network by one
`searchPlaylistsByMood` call. -/
def searchRequests (mood : String) : List String :=
  (searchTermsFor mood).take 3

/-- The requests issued by one `getPlaylistForMood` call: none when the
token check fails, since the function throws before searching. -/
def getPlaylistForMoodRequests (accessToken : Option String) (mood : String) : List String :=
  match accessToken with
  | none => []
  | some _ => searchRequests mood

/-- The `try` body of `getPlaylistForMood`: missing token throws
"Authentication required"; an empty aggregation throws "No playlists found
for this mood"; otherwise the best playlist's id is returned. -/
noncomputable def getPlaylistForMoodBody (accessToken : Option String)
    (env : String → Option (List SpotifyPlaylist)) (mood : String) : Except String String :=
  match accessToken with
  | none => .error "Authentication required"
  | some _ =>
    let playlists := searchPlaylistsByMood env mood
    if playlists.isEmpty then .error "No playlists found for this mood"
    else
      match selectBestPlaylist playlists mood with
      | .error e => .error e
      | .ok best => .ok best.id

/-- Model of `getPlaylistForMood` with its `catch` block: the authentication error
is re-thrown as a distinct prompt, every other error as the generic
"Failed to get playlist for mood". -/
noncomputable def getPlaylistForMood (accessToken : Option String)
    (env : String → Option (List SpotifyPlaylist)) (mood : String) : Except String String :=
  match getPlaylistForMoodBody accessToken env mood with
  | .ok best => .ok best
  | .error e =>
    if e = "Authentication required" then
      .error "Please authenticate with Spotify to get personalized playlists"
    else .error "Failed to get playlist for mood"

/-- Model of `getMultiplePlaylistsForMood(mood, count)` (count defaults to 3 at the
TypeScript call sites): top-`count` candidate ids by descending score;
when the search is empty it delegates to `getPlaylistForMood`; its `catch`
re-throws errors unchanged. -/
noncomputable def getMultiplePlaylistsForMood (accessToken : Option String)
    (env : String → Option (List SpotifyPlaylist)) (mood : String) (count : Nat) :
    Except String (List String) :=
  match accessToken with
  | none => .error "Authentication required"
  | some _ =>
    let playlists := searchPlaylistsByMood env mood
    if playlists.isEmpty then
      match getPlaylistForMood accessToken env mood with
      | .ok single => .ok [single]
      | .error e => .error e
    else
      let scoredPlaylists := playlists.map fun playlist =>
        (playlist, calculatePlaylistScore playlist mood)
      let sorted := scoredPlaylists.mergeSort byScoreDesc
      .ok ((sorted.take (min count sorted.length)).map fun item => item.1.id)

end SpotifyService

namespace SpotifyServiceStatic

/-- The `SpotifyPlaylist` interface of `SpotifyServiceStatic.ts` (no
`followers` field). -/
structure SpotifyPlaylist where
  id : String
  name : String
  description : String
  spotifyUrl : String
  images : List SpotifyImage
  tracks : Nat
deriving DecidableEq

/-- The `moodMap` table inside `getMoodKeywords` (lowercase keys). -/
def moodMap : String → Option (List String)
  | "happy" => some ["happy", "upbeat", "cheerful", "joyful", "positive"]
  | "sad" => some ["sad", "melancholy", "emotional", "slow", "heartbreak"]
  | "energetic" => some ["energetic", "pump up", "workout", "high energy", "motivation"]
  | "calm" => some ["calm", "relaxing", "chill", "peaceful", "ambient"]
  | "angry" => some ["angry", "aggressive", "metal", "punk", "rage"]
  | "romantic" => some ["romantic", "love", "slow dance", "valentine", "intimate"]
  | "nostalgic" => some ["nostalgic", "throwback", "classic", "memories", "vintage"]
  | "excited" => some ["excited", "party", "celebration", "fun", "uplifting"]
  | _ => none

/-- Model of `getMoodKeywords`: lowercase lookup with the fixed fallback
`['music', 'playlist', 'good vibes']` for unmapped moods. -/
def getMoodKeywords (mood : String) : List String :=
  (moodMap (lowerStr mood)).getD ["music", "playlist", "good vibes"]

/-- Model of `searchPlaylistsByMood(keywords)`: one request per keyword, each in its
own try/catch, so a failed request only skips that keyword; each keyword's
items are filtered to more than 10 tracks and a name containing the
keyword, then appended in loop order (no deduplication). -/
def searchPlaylistsByMood (env : String → Option (List SpotifyPlaylist))
    (keywords : List String) : List SpotifyPlaylist :=
  keywords.flatMap fun keyword =>
    match env keyword with
    | none => []
    | some items =>
      items.filter fun playlist =>
        decide (10 < playlist.tracks) && strIncludes (lowerStr playlist.name) (lowerStr keyword)

/-- The per-candidate score built inside the static `selectBestPlaylist`:
capped track bonus, +5 for a mood keyword in the name, +2 for a truthy
description, +1 for an image. -/
def playlistScore (playlist : SpotifyPlaylist) (mood : String) : ℚ :=
  min ((playlist.tracks : ℚ) / 10) 10
  + (if (getMoodKeywords mood).any
        (fun keyword => strIncludes (lowerStr playlist.name) (lowerStr keyword))
     then 5 else 0)
  + (if playlist.description = "" then 0 else 2)
  + (if playlist.images = [] then 0 else 1)

/-- The static `selectBestPlaylist`: stable descending sort by
`playlistScore`, first element (`none` only on an empty input, on which
the TypeScript would read `undefined`). -/
def selectBestPlaylist (playlists : List SpotifyPlaylist) (mood : String) :
    Option SpotifyPlaylist :=
  let scoredPlaylists := playlists.map fun playlist => (playlist, playlistScore playlist mood)
  match scoredPlaylists.mergeSort (fun a b => decide (b.2 ≤ a.2)) with
  | [] => none
  | best :: _ => some best.1

/-- The placeholder value of the `ACCESS_TOKEN` field. -/
def tokenPlaceholder : String := "YOUR_ACCESS_TOKEN_FROM_POSTMAN_HERE"

/-- The static `getPlaylistForMood`: returns `null` (`none`) when the token
is still the placeholder, when the search yields nothing, or when an error
escapes to its catch; otherwise the selected playlist. -/
def getPlaylistForMood (accessToken : String)
    (env : String → Option (List SpotifyPlaylist)) (mood : String) :
    Option SpotifyPlaylist :=
  if accessToken == tokenPlaceholder then none
  else
    let playlists := searchPlaylistsByMood env (getMoodKeywords mood)
    if playlists.isEmpty then none
    else selectBestPlaylist playlists mood

end SpotifyServiceStatic

/-! Concrete sample inputs used to exercise the theorems below. -/

/-- Sample candidate with no textual relevance to the mood "zz". -/
def pA : SpotifyService.SpotifyPlaylist := ⟨"idA", "aa", "", "urlA", [], 50, none⟩

/-- Sample candidate whose name is exactly the fallback term "zz". -/
def pB : SpotifyService.SpotifyPlaylist := ⟨"idB", "zz", "", "urlB", [], 50, none⟩

/-- Sample candidate whose name merely contains "zz". -/
def pC : SpotifyService.SpotifyPlaylist := ⟨"idC", "zz aa", "", "urlC", [], 50, none⟩

/-- Sample candidate that passes the quality filter. -/
def pGood : SpotifyService.SpotifyPlaylist :=
  ⟨"idG", "good vibes only", "", "urlG", [], 50, some 1000⟩

/-- Sample candidate with 1000 followers. -/
def pW : SpotifyService.SpotifyPlaylist := ⟨"idW", "w", "", "urlW", [], 50, some 1000⟩

/-- Sample candidate whose name contains "test". -/
def pT : SpotifyService.SpotifyPlaylist := ⟨"idT", "Test playlist", "", "urlT", [], 50, none⟩

/-- First batch entry with the shared identifier "dup". -/
def q1 : SpotifyService.SpotifyPlaylist := ⟨"dup", "first copy", "", "u1", [], 30, none⟩

/-- Second batch entry with the shared identifier "dup". -/
def q1dup : SpotifyService.SpotifyPlaylist := ⟨"dup", "second copy", "", "u2", [], 40, none⟩

/-- A batch entry with a fresh identifier. -/
def q2 : SpotifyService.SpotifyPlaylist := ⟨"b", "two", "", "u3", [], 30, none⟩

/-- Another batch entry with a fresh identifier. -/
def q3 : SpotifyService.SpotifyPlaylist := ⟨"c", "three", "", "u4", [], 30, none⟩

/-- Environment in which every search succeeds with zero items. -/
def envNoResults : String → Option (List SpotifyService.SpotifyPlaylist) := fun _ => some []

/-- Environment for the static service in which every search succeeds with
zero items. -/
def envStaticNoResults : String → Option (List SpotifyServiceStatic.SpotifyPlaylist) :=
  fun _ => some []

/-- Environment in which the request for "happy" fails and every other
request returns the single good candidate. -/
def envHappyFail : String → Option (List SpotifyService.SpotifyPlaylist) :=
  fun s => if s = "happy" then none else some [pGood]

/-- Environment returning the three scored sample candidates for every
term. -/
def envThree : String → Option (List SpotifyService.SpotifyPlaylist) :=
  fun _ => some [pA, pB, pC]

section SortingHelpers

variable {α : Type} {S : Type} [LinearOrder S]

/-- The descending comparator is transitive. -/
lemma byDescTrans (a b c : α × S) (hab : (decide (b.2 ≤ a.2) : Bool))
    (hbc : (decide (c.2 ≤ b.2) : Bool)) : (decide (c.2 ≤ a.2) : Bool) := by
  simp only [decide_eq_true_eq] at hab hbc ⊢
  exact le_trans hbc hab

/-- The descending comparator is total. -/
lemma byDescTotal (a b : α × S) :
    ((decide (b.2 ≤ a.2) : Bool) || (decide (a.2 ≤ b.2) : Bool)) = true := by
  simp only [Bool.or_eq_true, decide_eq_true_eq]
  exact le_total b.2 a.2

/-- The head of a stable descending sort of scored pairs belongs to the
input and carries a maximal score. -/
lemma mergeSort_desc_head_max (l : List (α × S)) (best : α × S) (rest : List (α × S))
    (h : l.mergeSort (fun a b => decide (b.2 ≤ a.2)) = best :: rest) :
    best ∈ l ∧ ∀ x ∈ l, x.2 ≤ best.2 := by
  have hperm : (l.mergeSort (fun a b => decide (b.2 ≤ a.2))).Perm l :=
    List.mergeSort_perm l _
  rw [h] at hperm
  have hmem : best ∈ l := hperm.mem_iff.mp (List.mem_cons_self _ _)
  have hsorted := @List.sorted_mergeSort (α × S)
    (fun a b => decide (b.2 ≤ a.2)) byDescTrans byDescTotal l
  rw [h] at hsorted
  have hrest : ∀ x ∈ rest, x.2 ≤ best.2 := by
    intro x hx
    have := (List.pairwise_cons.mp hsorted).1 x hx
    simpa using this
  refine ⟨hmem, fun x hx => ?_⟩
  rcases List.mem_cons.mp (hperm.mem_iff.mpr hx) with hxb | hxr
  · exact hxb ▸ le_refl _
  · exact hrest x hxr

/-- Decomposition of a stable descending sort at position `k`: the kept
pairs dominate the dropped ones and are themselves sorted descending. -/
lemma mergeSort_desc_take_drop (l : List (α × S)) (k : Nat) (sorted : List (α × S))
    (hs : sorted = l.mergeSort (fun a b => decide (b.2 ≤ a.2))) :
    l.Perm (sorted.take k ++ sorted.drop k) ∧
    (sorted.take k).Pairwise (fun a b => b.2 ≤ a.2) ∧
    ∀ a ∈ sorted.take k, ∀ b ∈ sorted.drop k, b.2 ≤ a.2 := by
  have hperm : sorted.Perm l := hs ▸ List.mergeSort_perm l _
  have hsorted := @List.sorted_mergeSort (α × S)
    (fun a b => decide (b.2 ≤ a.2)) byDescTrans byDescTotal l
  have hPw : sorted.Pairwise (fun a b : α × S => b.2 ≤ a.2) := by
    rw [hs]
    refine hsorted.imp ?_
    intro a b hab
    simpa using hab
  have hsplit : sorted = sorted.take k ++ sorted.drop k :=
    (List.take_append_drop k sorted).symm
  rw [hsplit] at hPw
  have hApp := List.pairwise_append.mp hPw
  refine ⟨?_, hApp.1, fun a ha b hb => hApp.2.2 a ha b hb⟩
  exact hperm.symm.trans (hsplit ▸ List.Perm.refl sorted)

end SortingHelpers

namespace SpotifyService

/-- Every element output by the deduplication recursion has an unseen
identifier, and output identifiers are pairwise distinct. -/
lemma removeDuplicatesAux_nodup (seen : List String) (l : List SpotifyPlaylist) :
    ((removeDuplicatePlaylistsAux seen l).map (fun p => p.id)).Nodup ∧
    ∀ p ∈ removeDuplicatePlaylistsAux seen l, p.id ∉ seen := by
  induction l generalizing seen with
  | nil => simp [removeDuplicatePlaylistsAux]
  | cons a rest ih =>
    by_cases h : a.id ∈ seen
    · simpa [removeDuplicatePlaylistsAux, h] using ih seen
    · have ih2 := ih (a.id :: seen)
      simp only [removeDuplicatePlaylistsAux, if_neg h, List.map_cons, List.nodup_cons,
        List.mem_cons, List.mem_map]
      refine ⟨⟨?_, ih2.1⟩, ?_⟩
      · rintro ⟨p, hp, hpid⟩
        exact (ih2.2 p hp) (by simp [hpid])
      · rintro p (rfl | hp)
        · exact h
        · exact fun hs => (ih2.2 p hp) (List.mem_cons_of_mem _ hs)

/-- The deduplication recursion yields a sublist of its input. -/
lemma removeDuplicatesAux_sublist (seen : List String) (l : List SpotifyPlaylist) :
    (removeDuplicatePlaylistsAux seen l).Sublist l := by
  induction l generalizing seen with
  | nil => simp [removeDuplicatePlaylistsAux]
  | cons a rest ih =>
    by_cases h : a.id ∈ seen
    · simpa [removeDuplicatePlaylistsAux, h] using (ih seen).cons a
    · simpa [removeDuplicatePlaylistsAux, h] using (ih (a.id :: seen)).cons₂ a

/-- Every element kept by the deduplication recursion is the first entry of
the input carrying its identifier. -/
lemma removeDuplicatesAux_first (seen : List String) (l : List SpotifyPlaylist)
    (p : SpotifyPlaylist) (hp : p ∈ removeDuplicatePlaylistsAux seen l) :
    l.find? (fun q => q.id == p.id) = some p := by
  induction l generalizing seen with
  | nil => simp [removeDuplicatePlaylistsAux] at hp
  | cons a rest ih =>
    by_cases h : a.id ∈ seen
    · rw [removeDuplicatePlaylistsAux, if_pos h] at hp
      have hne : a.id ≠ p.id := by
        intro he
        exact ((removeDuplicatesAux_nodup seen rest).2 p hp) (he ▸ h)
      rw [List.find?_cons_of_neg _ (by simpa using hne)]
      exact ih seen hp
    · rw [removeDuplicatePlaylistsAux, if_neg h] at hp
      rcases List.mem_cons.mp hp with rfl | hp2
      · rw [List.find?_cons_of_pos _ (by simp)]
      · have hne : a.id ≠ p.id := by
          intro he
          exact ((removeDuplicatesAux_nodup (a.id :: seen) rest).2 p hp2) (by simp [he])
        rw [List.find?_cons_of_neg _ (by simpa using hne)]
        exact ih (a.id :: seen) hp2

/-- Every unseen input identifier survives the deduplication recursion. -/
lemma removeDuplicatesAux_covers (seen : List String) (l : List SpotifyPlaylist)
    (p : SpotifyPlaylist) (hp : p ∈ l) (hid : p.id ∉ seen) :
    ∃ q ∈ removeDuplicatePlaylistsAux seen l, q.id = p.id := by
  induction l generalizing seen with
  | nil => simp at hp
  | cons a rest ih =>
    rcases List.mem_cons.mp hp with rfl | hp2
    · rw [removeDuplicatePlaylistsAux, if_neg hid]
      exact ⟨p, List.mem_cons_self _ _, rfl⟩
    · by_cases h : a.id ∈ seen
      · rw [removeDuplicatePlaylistsAux, if_pos h]
        exact ih seen hp2 hid
      · rw [removeDuplicatePlaylistsAux, if_neg h]
        by_cases he : p.id = a.id
        · exact ⟨a, List.mem_cons_self _ _, he.symm⟩
        · obtain ⟨q, hq, hqid⟩ := ih (a.id :: seen) hp2 (by simp [hid, he])
          exact ⟨q, List.mem_cons_of_mem _ hq, hqid⟩

/-- Behaviour of `selectBestPlaylist` on a non-empty input: it returns a
member of the input of maximal score. -/
lemma selectBest_spec (playlists : List SpotifyPlaylist) (mood : String)
    (hne : playlists ≠ []) :
    ∃ best, selectBestPlaylist playlists mood = .ok best ∧ best ∈ playlists ∧
      ∀ q ∈ playlists,
        calculatePlaylistScore q mood ≤ calculatePlaylistScore best mood := by
  have hE : playlists.isEmpty = false := by
    cases playlists with
    | nil => exact absurd rfl hne
    | cons a l => rfl
  have hlen : ((playlists.map fun p => (p, calculatePlaylistScore p mood)).mergeSort
      byScoreDesc).length = playlists.length := by
    simp
  cases hms : (playlists.map fun p => (p, calculatePlaylistScore p mood)).mergeSort
      byScoreDesc with
  | nil =>
    exfalso
    rw [hms] at hlen
    exact hne (List.length_eq_zero.mp hlen.symm)
  | cons best rest =>
    have hms' : (playlists.map fun p => (p, calculatePlaylistScore p mood)).mergeSort
        (fun a b => decide (b.2 ≤ a.2)) = best :: rest := hms
    obtain ⟨hmem, hmax⟩ :=
      mergeSort_desc_head_max (playlists.map fun p => (p, calculatePlaylistScore p mood))
        best rest hms'
    obtain ⟨p, hp, hpe⟩ := List.mem_map.mp hmem
    have hb1 : best.1 = p := by rw [← hpe]
    have hb2 : best.2 = calculatePlaylistScore best.1 mood := by
      rw [← hpe]
    refine ⟨best.1, ?_, hb1 ▸ hp, ?_⟩
    · unfold selectBestPlaylist
      rw [hE]
      simp only [Bool.false_eq_true, if_false]
      rw [hms]
    · intro q hq
      have hqs : (q, calculatePlaylistScore q mood) ∈
          playlists.map fun p => (p, calculatePlaylistScore p mood) :=
        List.mem_map.mpr ⟨q, hq, rfl⟩
      have := hmax _ hqs
      simpa [hb2] using this

end SpotifyService

namespace SpotifyService

/-- Score of a candidate with no followers, 30–100 tracks, empty
description and no images: only the track bonus and the name term
remain. -/
lemma calculateScore_basic (p : SpotifyPlaylist) (mood : String)
    (hf : p.followers = none) (ht : 30 ≤ p.tracks ∧ p.tracks ≤ 100)
    (hd : p.description = "") (hi : p.images = []) :
    calculatePlaylistScore p mood =
      20 + (calculateNameRelevance p.name mood : ℚ) * 30 := by
  unfold calculatePlaylistScore followersOrOne
  rw [hf]
  simp only [ht, and_true, and_self, if_true, if_pos, hd, hi, ite_true]
  norm_num [Real.logb_one]

/-- Evaluation of `calculateNameRelevance` when the mood expands to a
single search term. -/
lemma nameRelevance_single (text mood term : String) (hne : text ≠ "")
    (hterms : searchTermsFor mood = [term]) :
    calculateNameRelevance text mood =
      if strIncludes (lowerStr text) (lowerStr term) = true then
        if lowerStr text = lowerStr term then 1 else 1 / 2
      else 0 := by
  simp only [calculateNameRelevance, hterms, if_neg hne, List.foldl_cons, List.foldl_nil,
    List.length_cons, List.length_nil]
  rcases hI : strIncludes (lowerStr text) (lowerStr term) with _ | _
  · simp only [hI, Bool.false_eq_true, if_false]
    norm_num
  · simp only [hI, if_true]
    by_cases hEq : lowerStr text = lowerStr term
    · simp only [hEq, if_true, if_pos]
      norm_num
    · simp only [hEq, if_false, if_neg hEq]
      norm_num

end SpotifyService

/-- C1: for every non-empty candidate list and mood, `selectBestPlaylist`
returns a member of the list whose `calculatePlaylistScore` is maximal;
and whenever one of three candidates scores strictly above the other two
(e.g. scores 12, 45, 30), that candidate is returned. -/
theorem C1_selectBestPlaylist_max :
    (∀ (playlists : List SpotifyService.SpotifyPlaylist) (mood : String),
      playlists ≠ [] →
      ∃ best, SpotifyService.selectBestPlaylist playlists mood = .ok best ∧
        best ∈ playlists ∧
        ∀ q ∈ playlists,
          SpotifyService.calculatePlaylistScore q mood ≤
            SpotifyService.calculatePlaylistScore best mood) ∧
    (∀ (a b c : SpotifyService.SpotifyPlaylist) (mood : String),
      SpotifyService.calculatePlaylistScore a mood <
        SpotifyService.calculatePlaylistScore b mood →
      SpotifyService.calculatePlaylistScore c mood <
        SpotifyService.calculatePlaylistScore b mood →
      SpotifyService.selectBestPlaylist [a, b, c] mood = .ok b) := by
  constructor
  · exact fun playlists mood hne => SpotifyService.selectBest_spec playlists mood hne
  · intro a b c mood ha hc
    obtain ⟨best, hsel, hmem, hmax⟩ :=
      SpotifyService.selectBest_spec [a, b, c] mood (by simp)
    have hble := hmax b (by simp)
    rcases (by simpa using hmem : best = a ∨ best = b ∨ best = c) with rfl | rfl | rfl
    · exact absurd (lt_of_lt_of_le ha hble) (lt_irrefl _)
    · exact hsel
    · exact absurd (lt_of_le_of_lt hble hc) (lt_irrefl _)

/-- Witness for C1 at concrete inputs: the singleton list, and three
candidates with scores 20, 50, 35 for the fallback mood "zz". -/
theorem C1_witness :
    (([pA] : List SpotifyService.SpotifyPlaylist) ≠ []) ∧
    (∃ best, SpotifyService.selectBestPlaylist [pA] "zz" = .ok best ∧
      best ∈ [pA] ∧
      ∀ q ∈ [pA],
        SpotifyService.calculatePlaylistScore q "zz" ≤
          SpotifyService.calculatePlaylistScore best "zz") ∧
    SpotifyService.calculatePlaylistScore pA "zz" <
      SpotifyService.calculatePlaylistScore pB "zz" ∧
    SpotifyService.calculatePlaylistScore pC "zz" <
      SpotifyService.calculatePlaylistScore pB "zz" ∧
    SpotifyService.selectBestPlaylist [pA, pB, pC] "zz" = .ok pB := by
  have hterms : SpotifyService.searchTermsFor "zz" = ["zz"] := by decide
  have hA : SpotifyService.calculatePlaylistScore pA "zz" = 20 := by
    rw [SpotifyService.calculateScore_basic pA "zz" rfl (by decide) rfl rfl]
    rw [SpotifyService.nameRelevance_single pA.name "zz" "zz" (by decide) hterms]
    norm_num [show strIncludes (lowerStr pA.name) (lowerStr "zz") = false
      from by decide]
  have hB : SpotifyService.calculatePlaylistScore pB "zz" = 50 := by
    rw [SpotifyService.calculateScore_basic pB "zz" rfl (by decide) rfl rfl]
    rw [SpotifyService.nameRelevance_single pB.name "zz" "zz" (by decide) hterms]
    norm_num [show strIncludes (lowerStr pB.name) (lowerStr "zz") = true
      from by decide, show lowerStr pB.name = lowerStr "zz" from by decide,
      show strIncludes (lowerStr "zz") (lowerStr "zz") = true from by decide]
  have hC : SpotifyService.calculatePlaylistScore pC "zz" = 35 := by
    rw [SpotifyService.calculateScore_basic pC "zz" rfl (by decide) rfl rfl]
    rw [SpotifyService.nameRelevance_single pC.name "zz" "zz" (by decide) hterms]
    norm_num [show strIncludes (lowerStr pC.name) (lowerStr "zz") = true
      from by decide, show lowerStr pC.name ≠ lowerStr "zz" from by decide]
  have h1 : SpotifyService.calculatePlaylistScore pA "zz" <
      SpotifyService.calculatePlaylistScore pB "zz" := by rw [hA, hB]; norm_num
  have h2 : SpotifyService.calculatePlaylistScore pC "zz" <
      SpotifyService.calculatePlaylistScore pB "zz" := by rw [hC, hB]; norm_num
  exact ⟨by simp, C1_selectBestPlaylist_max.1 [pA] "zz" (by simp), h1, h2,
    C1_selectBestPlaylist_max.2 pA pB pC "zz" h1 h2⟩

/-- C3: deduplication yields pairwise-distinct identifiers, keeps exactly
the first occurrence of each identifier, preserves the relative order of
kept entries (sublist of the input), and loses no identifier. -/
theorem C3_removeDuplicates_spec :
    ∀ (playlists : List SpotifyService.SpotifyPlaylist),
      ((SpotifyService.removeDuplicatePlaylists playlists).map fun p => p.id).Nodup ∧
      (SpotifyService.removeDuplicatePlaylists playlists).Sublist playlists ∧
      (∀ p ∈ SpotifyService.removeDuplicatePlaylists playlists,
        playlists.find? (fun q => q.id == p.id) = some p) ∧
      (∀ p ∈ playlists,
        ∃ q ∈ SpotifyService.removeDuplicatePlaylists playlists, q.id = p.id) := by
  intro playlists
  exact ⟨(SpotifyService.removeDuplicatesAux_nodup [] playlists).1,
    SpotifyService.removeDuplicatesAux_sublist [] playlists,
    fun p hp => SpotifyService.removeDuplicatesAux_first [] playlists p hp,
    fun p hp => SpotifyService.removeDuplicatesAux_covers [] playlists p hp (by simp)⟩

/-- Witness for C3 on the concatenation of two batches sharing the
identifier "dup": the shared identifier survives exactly once, as its
first occurrence. -/
theorem C3_witness :
    (q1dup ∈ ([q1, q2] ++ [q1dup, q3])) ∧
    (∃ q ∈ SpotifyService.removeDuplicatePlaylists ([q1, q2] ++ [q1dup, q3]),
      q.id = q1dup.id) ∧
    SpotifyService.removeDuplicatePlaylists ([q1, q2] ++ [q1dup, q3]) = [q1, q2, q3] ∧
    ([q1, q2] ++ [q1dup, q3]).find? (fun q => q.id == q1dup.id) = some q1 :=
  ⟨by decide, (C3_removeDuplicates_spec ([q1, q2] ++ [q1dup, q3])).2.2.2 q1dup (by decide),
    by decide, by decide⟩

/-- C9: the quality filter excludes every playlist whose lowercased name
contains "test", regardless of its other attributes; membership in the
filtered list is exactly: membership in the input, 15 ≤ tracks ≤ 200, a
non-empty name, and no "test" in the lowercased name. -/
theorem C9_filterQuality_spec :
    (∀ (playlists : List SpotifyService.SpotifyPlaylist)
      (p : SpotifyService.SpotifyPlaylist),
      strIncludes (lowerStr p.name) "test" = true →
      p ∉ SpotifyService.filterPlaylistsByQuality playlists) ∧
    (∀ (playlists : List SpotifyService.SpotifyPlaylist)
      (p : SpotifyService.SpotifyPlaylist),
      p ∈ SpotifyService.filterPlaylistsByQuality playlists ↔
        p ∈ playlists ∧ 15 ≤ p.tracks ∧ p.tracks ≤ 200 ∧ p.name ≠ "" ∧
          strIncludes (lowerStr p.name) "test" = false) := by
  have hiff : ∀ (playlists : List SpotifyService.SpotifyPlaylist)
      (p : SpotifyService.SpotifyPlaylist),
      p ∈ SpotifyService.filterPlaylistsByQuality playlists ↔
        p ∈ playlists ∧ 15 ≤ p.tracks ∧ p.tracks ≤ 200 ∧ p.name ≠ "" ∧
          strIncludes (lowerStr p.name) "test" = false := by
    intro playlists p
    simp only [SpotifyService.filterPlaylistsByQuality, List.mem_filter,
      Bool.and_eq_true, decide_eq_true_eq, Bool.not_eq_true', beq_eq_false_iff_ne,
      ne_eq]
    tauto
  refine ⟨?_, hiff⟩
  intro playlists p ht hmem
  have h := ((hiff playlists p).mp hmem).2.2.2.2
  rw [ht] at h
  exact absurd h (by simp)

/-- Witness for C9: a 50-track playlist named "Test playlist" is excluded
from the filtered singleton list. -/
theorem C9_witness :
    strIncludes (lowerStr pT.name) "test" = true ∧
    pT ∉ SpotifyService.filterPlaylistsByQuality [pT] :=
  ⟨by decide, C9_filterQuality_spec.1 [pT] pT (by decide)⟩

/-- C10: the relevance fraction always lies in [0, 1], so the name term of
the score is at most 30 and the description term at most 15. -/
theorem C10_relevance_bounds :
    ∀ (text mood : String),
      0 ≤ SpotifyService.calculateNameRelevance text mood ∧
      SpotifyService.calculateNameRelevance text mood ≤ 1 ∧
      SpotifyService.calculateNameRelevance text mood * 30 ≤ 30 ∧
      SpotifyService.calculateNameRelevance text mood * 15 ≤ 15 := by
  intro text mood
  have hfold : ∀ (terms : List String) (acc : ℚ), 0 ≤ acc →
      0 ≤ terms.foldl
        (fun acc term =>
          if strIncludes (lowerStr text) (lowerStr term) then
            if lowerStr text = lowerStr term then acc + 1 else acc + 1 / 2
          else acc) acc := by
    intro terms
    induction terms with
    | nil => intro acc hacc; simpa using hacc
    | cons t ts ih =>
      intro acc hacc
      simp only [List.foldl_cons]
      apply ih
      split
      · split <;> linarith
      · exact hacc
  have h01 : 0 ≤ SpotifyService.calculateNameRelevance text mood ∧
      SpotifyService.calculateNameRelevance text mood ≤ 1 := by
    unfold SpotifyService.calculateNameRelevance
    split
    · norm_num
    · constructor
      · exact le_min (div_nonneg (hfold _ 0 le_rfl) (Nat.cast_nonneg _)) (by norm_num)
      · exact min_le_right _ _
  refine ⟨h01.1, h01.2, ?_, ?_⟩
  · nlinarith [h01.1, h01.2]
  · nlinarith [h01.1, h01.2]

/-- C8: two candidates identical except for follower count 1,000 versus
100,000 — the higher-follower candidate scores strictly higher (the
popularity term is 10·log10 of the follower count). -/
theorem C8_follower_monotone :
    ∀ (p : SpotifyService.SpotifyPlaylist) (mood : String),
      p.followers = some 1000 →
      SpotifyService.calculatePlaylistScore p mood <
        SpotifyService.calculatePlaylistScore { p with followers := some 100000 } mood := by
  intro p mood hf
  unfold SpotifyService.calculatePlaylistScore SpotifyService.followersOrOne
  simp only [hf]
  norm_num

/-- Witness for C8: the sample candidate with 1,000 followers. -/
theorem C8_witness :
    pW.followers = some 1000 ∧
    SpotifyService.calculatePlaylistScore pW "Happy" <
      SpotifyService.calculatePlaylistScore { pW with followers := some 100000 } "Happy" :=
  ⟨rfl, C8_follower_monotone pW "Happy" rfl⟩

/-- Counterexample to C4: for the unmapped mood "Bored", the static
variant's keyword expansion returns the fixed three-element list
["music", "playlist", "good vibes"], not the single lowercased input. -/
theorem C4_counterexample :
    SpotifyServiceStatic.moodMap (lowerStr "Bored") = none ∧
    SpotifyServiceStatic.getMoodKeywords "Bored" = ["music", "playlist", "good vibes"] ∧
    SpotifyServiceStatic.getMoodKeywords "Bored" ≠ [lowerStr "Bored"] :=
  ⟨by decide, by decide, by decide⟩

/-- C4 (amended): for a mood missing from `MOOD_TO_SEARCH_TERMS`, the
`SpotifyService` expansion is the single lowercased input; but for a mood
missing from the static `moodMap`, `getMoodKeywords` falls back to the
fixed list ["music", "playlist", "good vibes"]. Neither raises an
error. -/
theorem C4_unmapped_mood :
    ∀ (mood : String),
      (SpotifyService.MOOD_TO_SEARCH_TERMS mood = none →
        SpotifyService.searchTermsFor mood = [lowerStr mood]) ∧
      (SpotifyServiceStatic.moodMap (lowerStr mood) = none →
        SpotifyServiceStatic.getMoodKeywords mood = ["music", "playlist", "good vibes"]) := by
  intro mood
  constructor
  · intro h
    simp [SpotifyService.searchTermsFor, h]
  · intro h
    simp [SpotifyServiceStatic.getMoodKeywords, h]

/-- Witness for C4 at the unmapped moods "zq" and "Bored". -/
theorem C4_witness :
    SpotifyService.MOOD_TO_SEARCH_TERMS "zq" = none ∧
    SpotifyService.searchTermsFor "zq" = [lowerStr "zq"] ∧
    SpotifyServiceStatic.moodMap (lowerStr "Bored") = none ∧
    SpotifyServiceStatic.getMoodKeywords "Bored" = ["music", "playlist", "good vibes"] :=
  ⟨by decide, (C4_unmapped_mood "zq").1 (by decide), by decide,
    (C4_unmapped_mood "Bored").2 (by decide)⟩

/-- C5: with no access token, `getPlaylistForMood` fails with the
authentication prompt (distinct from the generic failure message) and
issues no search request. -/
theorem C5_auth_short_circuit :
    ∀ (env : String → Option (List SpotifyService.SpotifyPlaylist)) (mood : String),
      SpotifyService.getPlaylistForMood none env mood =
        .error "Please authenticate with Spotify to get personalized playlists" ∧
      SpotifyService.getPlaylistForMoodRequests none mood = [] ∧
      ("Please authenticate with Spotify to get personalized playlists" ≠
        "Failed to get playlist for mood") := by
  intro env mood
  exact ⟨rfl, rfl, by decide⟩

/-- Pointwise-equal request handlers aggregate identically. -/
lemma flatMapEqOn {α β : Type} (l : List α) (f g : α → List β)
    (h : ∀ a ∈ l, f a = g a) : l.flatMap f = l.flatMap g := by
  induction l with
  | nil => rfl
  | cons a as ih =>
    simp only [List.flatMap_cons, h a (List.mem_cons_self _ _),
      ih fun b hb => h b (List.mem_cons_of_mem _ hb)]

/-- When the aggregation is empty, the public entry point surfaces the
generic failure message (the internal no-candidates throw is re-wrapped by
the catch). -/
lemma getPlaylistForMood_search_nil (tok : String)
    (env : String → Option (List SpotifyService.SpotifyPlaylist)) (mood : String)
    (h : SpotifyService.searchPlaylistsByMood env mood = []) :
    SpotifyService.getPlaylistForMood (some tok) env mood =
      .error "Failed to get playlist for mood" := by
  have hbody : SpotifyService.getPlaylistForMoodBody (some tok) env mood =
      .error "No playlists found for this mood" := by
    unfold SpotifyService.getPlaylistForMoodBody
    simp [h]
  unfold SpotifyService.getPlaylistForMood
  rw [hbody]
  rfl

/-- Counterexample to C2: a valid token and an aggregation that yields zero
playlists make the static public entry point return `null` (`none`), not a
distinguished no-candidates error. -/
theorem C2_counterexample :
    SpotifyServiceStatic.searchPlaylistsByMood envStaticNoResults
      (SpotifyServiceStatic.getMoodKeywords "happy") = [] ∧
    SpotifyServiceStatic.getPlaylistForMood "valid-token" envStaticNoResults "happy" =
      none :=
  ⟨rfl, rfl⟩

/-- C2 (amended): on the empty candidate sequence `selectBestPlaylist`
itself fails with the distinguished "No playlists available for selection"
error, and the `SpotifyService` entry point fails rather than returning a
value — but its catch re-wraps the no-candidates error into the generic
"Failed to get playlist for mood" — while the static entry point silently
returns `null`. -/
theorem C2_empty_candidates :
    (∀ mood : String,
      SpotifyService.selectBestPlaylist [] mood =
        .error "No playlists available for selection") ∧
    (∀ (tok : String) (env : String → Option (List SpotifyService.SpotifyPlaylist))
      (mood : String),
      SpotifyService.searchPlaylistsByMood env mood = [] →
      SpotifyService.getPlaylistForMood (some tok) env mood =
        .error "Failed to get playlist for mood") ∧
    (∀ (tok : String) (env : String → Option (List SpotifyServiceStatic.SpotifyPlaylist))
      (mood : String),
      tok ≠ SpotifyServiceStatic.tokenPlaceholder →
      SpotifyServiceStatic.searchPlaylistsByMood env
        (SpotifyServiceStatic.getMoodKeywords mood) = [] →
      SpotifyServiceStatic.getPlaylistForMood tok env mood = none) := by
  refine ⟨fun mood => rfl, ?_, ?_⟩
  · intro tok env mood h
    exact getPlaylistForMood_search_nil tok env mood h
  · intro tok env mood htok h
    have hbeq : (tok == SpotifyServiceStatic.tokenPlaceholder) = false :=
      beq_eq_false_iff_ne.mpr htok
    unfold SpotifyServiceStatic.getPlaylistForMood
    simp [hbeq, h]

/-- Witness for C2 at concrete empty-result environments for both
services. -/
theorem C2_witness :
    SpotifyService.searchPlaylistsByMood envNoResults "Happy" = [] ∧
    SpotifyService.getPlaylistForMood (some "t") envNoResults "Happy" =
      .error "Failed to get playlist for mood" ∧
    ("t" ≠ SpotifyServiceStatic.tokenPlaceholder) ∧
    SpotifyServiceStatic.searchPlaylistsByMood envStaticNoResults
      (SpotifyServiceStatic.getMoodKeywords "calm") = [] ∧
    SpotifyServiceStatic.getPlaylistForMood "t" envStaticNoResults "calm" = none :=
  ⟨rfl, C2_empty_candidates.2.1 "t" envNoResults "Happy" rfl, by decide, rfl,
    C2_empty_candidates.2.2 "t" envStaticNoResults "calm" (by decide) rfl⟩

/-- C6: a failed individual search request only removes that keyword's
contribution — aggregation continues as if the keyword had returned zero
items and no error reaches the caller; the entry-point body fails (with
its no-candidates error) exactly when the total candidate set is empty,
and succeeds otherwise. -/
theorem C6_failed_request_omitted :
    ∀ (env : String → Option (List SpotifyService.SpotifyPlaylist)) (mood t : String),
      env t = none →
      (SpotifyService.searchPlaylistsByMood env mood =
        SpotifyService.searchPlaylistsByMood
          (fun s => if s = t then some [] else env s) mood) ∧
      (∀ tok : String,
        (SpotifyService.getPlaylistForMoodBody (some tok) env mood =
            .error "No playlists found for this mood" ↔
          SpotifyService.searchPlaylistsByMood env mood = []) ∧
        (SpotifyService.searchPlaylistsByMood env mood ≠ [] →
          ∃ bid, SpotifyService.getPlaylistForMood (some tok) env mood = .ok bid)) := by
  intro env mood t ht
  constructor
  · have hagg : ((SpotifyService.searchTermsFor mood).take 3).flatMap
        (fun term => match env term with
          | none => []
          | some items => items) =
      ((SpotifyService.searchTermsFor mood).take 3).flatMap
        (fun term => match (if term = t then some [] else env term) with
          | none => []
          | some items => items) := by
      apply flatMapEqOn
      intro s _
      by_cases hst : s = t
      · subst hst
        rw [ht, if_pos rfl]
      · rw [if_neg hst]
    simp only [SpotifyService.searchPlaylistsByMood]
    rw [hagg]
  · intro tok
    have hok : SpotifyService.searchPlaylistsByMood env mood ≠ [] →
        ∃ best, SpotifyService.getPlaylistForMoodBody (some tok) env mood =
          .ok best.id ∧ best ∈ SpotifyService.searchPlaylistsByMood env mood := by
      intro hne
      obtain ⟨best, hsel, hmem, _⟩ :=
        SpotifyService.selectBest_spec (SpotifyService.searchPlaylistsByMood env mood)
          mood hne
      have hE : (SpotifyService.searchPlaylistsByMood env mood).isEmpty = false := by
        cases hL : SpotifyService.searchPlaylistsByMood env mood with
        | nil => exact absurd hL hne
        | cons a l => rfl
      refine ⟨best, ?_, hmem⟩
      unfold SpotifyService.getPlaylistForMoodBody
      simp [hE, hsel]
    constructor
    · constructor
      · intro hbody
        by_contra hne
        obtain ⟨best, hb, _⟩ := hok hne
        rw [hb] at hbody
        exact absurd hbody (by simp)
      · intro hempty
        unfold SpotifyService.getPlaylistForMoodBody
        simp [hempty]
    · intro hne
      obtain ⟨best, hb, _⟩ := hok hne
      refine ⟨best.id, ?_⟩
      unfold SpotifyService.getPlaylistForMood
      rw [hb]

/-- Witness for C6: the request for "happy" fails while "upbeat" and
"cheerful" return a good candidate; aggregation proceeds and the entry
point succeeds. -/
theorem C6_witness :
    envHappyFail "happy" = none ∧
    SpotifyService.searchPlaylistsByMood envHappyFail "Happy" =
      SpotifyService.searchPlaylistsByMood
        (fun s => if s = "happy" then some [] else envHappyFail s) "Happy" ∧
    SpotifyService.searchPlaylistsByMood envHappyFail "Happy" ≠ [] ∧
    (∃ bid, SpotifyService.getPlaylistForMood (some "t") envHappyFail "Happy" =
      .ok bid) := by
  have h := C6_failed_request_omitted envHappyFail "Happy" "happy" rfl
  exact ⟨rfl, h.1, by decide, (h.2 "t").2 (by decide)⟩

namespace SpotifyService

/-- Decomposition of the score-and-sort pipeline of
`getMultiplePlaylistsForMood`: the kept prefix of the sorted candidates
dominates the dropped remainder, is sorted by descending score, and the
mapped identifier list equals the value the function returns. -/
lemma topK_spec (P : List SpotifyPlaylist) (mood : String) (count : Nat) :
    ∃ ps rest : List SpotifyPlaylist,
      P.Perm (ps ++ rest) ∧
      (((P.map fun p => (p, calculatePlaylistScore p mood)).mergeSort byScoreDesc).take
          (min count
            ((P.map fun p => (p, calculatePlaylistScore p mood)).mergeSort
              byScoreDesc).length)).map (fun item => item.1.id) =
        ps.map (fun p => p.id) ∧
      ps.length = min count P.length ∧
      ps.Pairwise (fun a b =>
        calculatePlaylistScore b mood ≤ calculatePlaylistScore a mood) ∧
      (∀ a ∈ ps, ∀ b ∈ rest,
        calculatePlaylistScore b mood ≤ calculatePlaylistScore a mood) := by
  set scored := P.map fun p => (p, calculatePlaylistScore p mood) with hscored
  set sorted := scored.mergeSort byScoreDesc with hsorted
  set k := min count sorted.length with hk
  obtain ⟨hPerm, hPw, hCross⟩ := mergeSort_desc_take_drop scored k sorted
    (hsorted : sorted = scored.mergeSort fun a b => decide (b.2 ≤ a.2))
  have hsnd : ∀ x ∈ sorted, x.2 = calculatePlaylistScore x.1 mood := by
    intro x hx
    have hx' : x ∈ scored := by
      rw [hsorted] at hx
      exact List.mem_mergeSort.mp hx
    rw [hscored] at hx'
    obtain ⟨p, _, hpe⟩ := List.mem_map.mp hx'
    rw [← hpe]
  have hlenS : sorted.length = P.length := by
    rw [hsorted, List.length_mergeSort, hscored, List.length_map]
  refine ⟨(sorted.take k).map (fun x => x.1), (sorted.drop k).map (fun x => x.1),
    ?_, ?_, ?_, ?_, ?_⟩
  · have h1 := hPerm.map (fun x : SpotifyPlaylist × ℝ => x.1)
    have h2 : scored.map (fun x => x.1) = P := by
      rw [hscored, List.map_map]
      exact List.map_id P
    rw [h2, List.map_append] at h1
    exact h1
  · simp [List.map_map, Function.comp_def]
  · simp only [List.length_map, List.length_take, hk, hlenS]
    omega
  · rw [List.pairwise_map]
    refine List.Pairwise.imp_of_mem ?_ hPw
    intro x y hx hy hxy
    rw [← hsnd x (List.take_subset _ _ hx), ← hsnd y (List.take_subset _ _ hy)]
    exact hxy
  · intro a ha b hb
    obtain ⟨x, hx, rfl⟩ := List.mem_map.mp ha
    obtain ⟨y, hy, rfl⟩ := List.mem_map.mp hb
    rw [← hsnd x (List.take_subset _ _ hx), ← hsnd y (List.drop_subset _ _ hy)]
    exact hCross x hx y hy

end SpotifyService

/-- Counterexample to C7: with a token present and every search returning
zero candidates, `getMultiplePlaylistsForMood` propagates the failure of
its fallback call to `getPlaylistForMood` (which re-runs the same empty
search) instead of returning a single-candidate sequence. -/
theorem C7_counterexample :
    SpotifyService.searchPlaylistsByMood envNoResults "Happy" = [] ∧
    SpotifyService.getMultiplePlaylistsForMood (some "t") envNoResults "Happy" 3 =
      .error "Failed to get playlist for mood" := by
  refine ⟨rfl, ?_⟩
  have hg := getPlaylistForMood_search_nil "t" envNoResults "Happy" rfl
  unfold SpotifyService.getMultiplePlaylistsForMood
  simp [hg]
  rfl

/-- C7 (amended): with a non-empty candidate set,
`getMultiplePlaylistsForMood` returns the identifiers of the top-`count`
candidates by descending score (length `min count n`, each kept candidate
scoring at least every dropped one); with an empty candidate set it
delegates to `getPlaylistForMood`, which under the same search results
fails, so the call returns the generic failure instead of a
single-candidate list. -/
theorem C7_topK :
    (∀ (tok : String) (env : String → Option (List SpotifyService.SpotifyPlaylist))
      (mood : String) (count : Nat),
      SpotifyService.searchPlaylistsByMood env mood ≠ [] →
      ∃ ps rest : List SpotifyService.SpotifyPlaylist,
        (SpotifyService.searchPlaylistsByMood env mood).Perm (ps ++ rest) ∧
        SpotifyService.getMultiplePlaylistsForMood (some tok) env mood count =
          .ok (ps.map fun p => p.id) ∧
        ps.length = min count (SpotifyService.searchPlaylistsByMood env mood).length ∧
        ps.Pairwise (fun a b =>
          SpotifyService.calculatePlaylistScore b mood ≤
            SpotifyService.calculatePlaylistScore a mood) ∧
        (∀ a ∈ ps, ∀ b ∈ rest,
          SpotifyService.calculatePlaylistScore b mood ≤
            SpotifyService.calculatePlaylistScore a mood)) ∧
    (∀ (tok : String) (env : String → Option (List SpotifyService.SpotifyPlaylist))
      (mood : String) (count : Nat),
      SpotifyService.searchPlaylistsByMood env mood = [] →
      SpotifyService.getMultiplePlaylistsForMood (some tok) env mood count =
        .error "Failed to get playlist for mood") := by
  constructor
  · intro tok env mood count hne
    have hE : (SpotifyService.searchPlaylistsByMood env mood).isEmpty = false := by
      cases hL : SpotifyService.searchPlaylistsByMood env mood with
      | nil => exact absurd hL hne
      | cons a l => rfl
    obtain ⟨ps, rest, hperm, heq, hlen, hpw, hcross⟩ :=
      SpotifyService.topK_spec (SpotifyService.searchPlaylistsByMood env mood) mood count
    refine ⟨ps, rest, hperm, ?_, hlen, hpw, hcross⟩
    unfold SpotifyService.getMultiplePlaylistsForMood
    simp only [hE, Bool.false_eq_true, if_false]
    rw [heq]
  · intro tok env mood count h
    have hg := getPlaylistForMood_search_nil tok env mood h
    unfold SpotifyService.getMultiplePlaylistsForMood
    simp [h, hg]

/-- Witness for C7: three distinct candidates for the fallback mood "zz",
asking for the top 2. -/
theorem C7_witness :
    SpotifyService.searchPlaylistsByMood envThree "zz" ≠ [] ∧
    (∃ ps rest : List SpotifyService.SpotifyPlaylist,
      (SpotifyService.searchPlaylistsByMood envThree "zz").Perm (ps ++ rest) ∧
      SpotifyService.getMultiplePlaylistsForMood (some "t") envThree "zz" 2 =
        .ok (ps.map fun p => p.id) ∧
      ps.length = min 2 (SpotifyService.searchPlaylistsByMood envThree "zz").length ∧
      ps.Pairwise (fun a b =>
        SpotifyService.calculatePlaylistScore b "zz" ≤
          SpotifyService.calculatePlaylistScore a "zz") ∧
      (∀ a ∈ ps, ∀ b ∈ rest,
        SpotifyService.calculatePlaylistScore b "zz" ≤
          SpotifyService.calculatePlaylistScore a "zz")) :=
  ⟨by decide, C7_topK.1 "t" envThree "zz" 2 (by decide)⟩

/-- Witness for C5 at a concrete environment and mood. -/
theorem C5_witness :
    SpotifyService.getPlaylistForMood none envNoResults "Happy" =
      .error "Please authenticate with Spotify to get personalized playlists" ∧
    SpotifyService.getPlaylistForMoodRequests none "Happy" = [] ∧
    ("Please authenticate with Spotify to get personalized playlists" ≠
      "Failed to get playlist for mood") :=
  C5_auth_short_circuit envNoResults "Happy"

/-- Witness for C10 at a concrete text and mood. -/
theorem C10_witness :
    0 ≤ SpotifyService.calculateNameRelevance "happy hits" "Happy" ∧
    SpotifyService.calculateNameRelevance "happy hits" "Happy" ≤ 1 ∧
    SpotifyService.calculateNameRelevance "happy hits" "Happy" * 30 ≤ 30 ∧
    SpotifyService.calculateNameRelevance "happy hits" "Happy" * 15 ≤ 15 :=
  C10_relevance_bounds "happy hits" "Happy"
